import Mathlib

/-!
# Unison protocol — shallow embedding of the channel and framing subsystem

This file embeds, in Lean, the parts of the `unison-protocol` crate that the
verified properties talk about:

* the typed length-prefixed framing (`read_typed_frame` / `write_typed_frame`
  from `network/quic.rs`), modelled over byte lists (`List Nat`, each element a
  byte value);
* the `UnisonStream` state and its `send_frame` / `send_raw_frame` /
  `recv_typed_frame` operations (`network/quic.rs`);
* the `UnisonChannel` state (pending map, event queue, raw queue, id counter,
  receive task) and its `request` / timeout / receive-loop / `close` behaviour
  (`network/channel.rs`), as a step machine over an explicit state record;
* the connection-event subscription mechanism of `ProtocolServer`
  (`network/server.rs`);
* `ProtocolServer::build_identity` and the `ServerIdentity` data model
  (`network/server.rs`, `network/identity.rs`).

Machine integers are modelled as `Nat` with explicit reduction modulo `2 ^ w`
where the Rust code can overflow (`u32` frame lengths, the `AtomicU64` message
id counter).  Fallible operations return `Except`.  Asynchronous interleaving
is modelled by explicit steps: each step is one atomic action of the Rust code
(an id allocation plus pending-map insert, one receive-loop iteration, a
timeout firing, a `close()` call), and traces are lists of steps.
-/

namespace Unison

/-- `MAX_MESSAGE_SIZE` from `quic.rs`: 8 MiB. -/
def MAX_MESSAGE_SIZE : Nat := 8 * 1024 * 1024

/-- Big-endian byte decomposition of a `u32` value (`u32::to_be_bytes`).
The argument is assumed already reduced mod `2 ^ 32` by the caller. -/
def toBE32 (n : Nat) : List Nat :=
  [n / 2 ^ 24 % 256, n / 2 ^ 16 % 256, n / 2 ^ 8 % 256, n % 256]

/-- `u32::from_be_bytes` on four byte values. -/
def fromBE32 (b0 b1 b2 b3 : Nat) : Nat :=
  ((b0 * 256 + b1) * 256 + b2) * 256 + b3

/-- Errors of the framing layer (`read_typed_frame` / `write_typed_frame` in
`quic.rs` return `anyhow::Result`; we keep one constructor per distinct
failure site). -/
inductive FrameError where
  /-- `read_exact` of the 4-byte length failed (truncated input). -/
  | readLen : FrameError
  /-- `total_len == 0`: "Empty frame". -/
  | emptyFrame : FrameError
  /-- `total_len > MAX_MESSAGE_SIZE`: "Frame too large: {} bytes". -/
  | tooLarge (n : Nat) : FrameError
  /-- `read_exact` of the 1-byte type tag failed. -/
  | readTag : FrameError
  /-- `read_exact` of the payload failed. -/
  | readPayload : FrameError
deriving DecidableEq

/-- `RecvStream::read_exact` into an `n`-byte buffer: succeeds iff the stream
holds at least `n` more bytes, consuming them. -/
def readExact (n : Nat) (input : List Nat) : Option (List Nat × List Nat) :=
  if n ≤ input.length then some (input.take n, input.drop n) else none

/-- `read_typed_frame` (`quic.rs` lines 137–164): read a 4-byte big-endian
total length, reject `0` and `> MAX_MESSAGE_SIZE` *before* touching the rest
of the input, then read the 1-byte type tag and the `total_len - 1` payload
bytes.  Returns the tag, the payload and the unconsumed remainder of the
stream. -/
def read_typed_frame (input : List Nat) :
    Except FrameError ((Nat × List Nat) × List Nat) :=
  match input with
  | b0 :: b1 :: b2 :: b3 :: rest =>
    let totalLen := fromBE32 b0 b1 b2 b3
    if totalLen = 0 then .error .emptyFrame
    else if totalLen > MAX_MESSAGE_SIZE then .error (.tooLarge totalLen)
    else
      match rest with
      | t :: rest2 =>
        match readExact (totalLen - 1) rest2 with
        | some (payload, rest3) => .ok ((t, payload), rest3)
        | none => .error .readPayload
      | [] => .error .readTag
  | _ => .error .readLen

/-- The bytes `write_typed_frame` puts on the wire: 4-byte big-endian
`1 + |data|` (cast to `u32`, hence mod `2 ^ 32`), the tag byte, the payload. -/
def frameBytes (frameType : Nat) (data : List Nat) : List Nat :=
  toBE32 ((1 + data.length) % 2 ^ 32) ++ frameType :: data

/-- `write_typed_frame` (`quic.rs` lines 167–179).  The Rust code performs no
size validation whatsoever: its only failure points are transport-level
`write_all` errors, which an infallible sink never produces, so the model
always returns the wire bytes.  The `Except` wrapper mirrors the Rust
`Result` signature. -/
def write_typed_frame (frameType : Nat) (data : List Nat) :
    Except FrameError (List Nat) :=
  .ok (frameBytes frameType data)

/-- `MessageType` from `network/mod.rs`. -/
inductive MessageType where
  | request : MessageType
  | response : MessageType
  | event : MessageType
  | error : MessageType
deriving DecidableEq

/-- `ProtocolMessage` from `network/mod.rs`: the envelope `{id, method,
msg_type, payload}`.  The payload is kept as the JSON string the Rust struct
stores; its JSON structure is opaque to the channel layer. -/
structure ProtocolMessage where
  id : Nat
  method : String
  msg_type : MessageType
  payload : String
deriving DecidableEq

/-- `NetworkError` from `network/mod.rs` (constructors in source order). -/
inductive NetworkError where
  | connection (msg : String) : NetworkError
  | protocol (msg : String) : NetworkError
  | serialization (msg : String) : NetworkError
  | frameSerialization (msg : String) : NetworkError
  | quic (msg : String) : NetworkError
  | timeout : NetworkError
  | handlerNotFound (method : String) : NetworkError
  | notConnected : NetworkError
  | unsupportedTransport (msg : String) : NetworkError
deriving DecidableEq

/-- `TypedFrame` from `quic.rs`: the result of one typed-frame receive. -/
inductive TypedFrame where
  | protocol (msg : ProtocolMessage) : TypedFrame
  | raw (data : List Nat) : TypedFrame
deriving DecidableEq

/-- The mutable state of a `UnisonStream` (`quic.rs`): the `is_active` flag
and whether the send / recv halves are still present (`Option<SendStream>` /
`Option<RecvStream>` being `Some`).  `stream_id` and `method` are the opening
metadata. -/
structure UnisonStream where
  stream_id : Nat
  method : String
  isActive : Bool
  sendOpen : Bool
  recvOpen : Bool
deriving DecidableEq

/-- `UnisonStream::send_frame` (`quic.rs` lines 853–872): refuse if the
stream is inactive, refuse if the send half was taken, otherwise write the
encoded message as a typed frame with tag `0x00`.  `encode` stands for
`ProtocolMessage::into_frame` + `ProtocolFrame::to_bytes` (the external rkyv
codec); the returned bytes are what lands on the wire. -/
def UnisonStream.send_frame (encode : ProtocolMessage → List Nat)
    (st : UnisonStream) (msg : ProtocolMessage) :
    Except NetworkError (List Nat) :=
  if st.isActive = false then .error (.connection "Stream is not active")
  else if st.sendOpen = false then .error (.connection "Send stream is closed")
  else
    match write_typed_frame 0 (encode msg) with
    | .ok bytes => .ok bytes
    | .error _ => .error (.quic "Failed to send frame")

/-- `UnisonStream::send_raw_frame` (`quic.rs` lines 878–894): same checks,
tag `0x01`, no serializer. -/
def UnisonStream.send_raw_frame (st : UnisonStream) (data : List Nat) :
    Except NetworkError (List Nat) :=
  if st.isActive = false then .error (.connection "Stream is not active")
  else if st.sendOpen = false then .error (.connection "Send stream is closed")
  else
    match write_typed_frame 1 data with
    | .ok bytes => .ok bytes
    | .error _ => .error (.quic "Failed to send raw frame")

/-- `UnisonStream::close_stream` (`quic.rs` lines 897–917): store
`is_active = false`, take and finish the send half, take and stop the recv
half.  Idempotent. -/
def UnisonStream.close_stream (st : UnisonStream) : UnisonStream :=
  { st with isActive := false, sendOpen := false, recvOpen := false }

/-- `UnisonStream::recv_typed_frame` (`quic.rs` lines 936–965).  `decode`
stands for `ProtocolFrame::from_bytes` + `ProtocolMessage::from_frame` (the
external rkyv codec).  The function returns the possibly-updated stream state
together with the result; note that the *only* site that stores
`is_active := false` is the `read_typed_frame` failure branch — an unknown
type tag returns a `Protocol` error but leaves the stream state untouched. -/
def UnisonStream.recv_typed_frame (decode : List Nat → Except NetworkError ProtocolMessage)
    (st : UnisonStream) (input : List Nat) :
    UnisonStream × Except NetworkError (TypedFrame × List Nat) :=
  if st.isActive = false then (st, .error (.connection "Stream is not active"))
  else if st.recvOpen = false then
    (st, .error (.connection "Receive stream is closed"))
  else
    match read_typed_frame input with
    | .error _ =>
      ({ st with isActive := false }, .error (.quic "Failed to read frame"))
    | .ok ((frameType, payload), rest) =>
      if frameType = 0 then
        match decode payload with
        | .ok msg => (st, .ok (.protocol msg, rest))
        | .error e => (st, .error e)
      else if frameType = 1 then (st, .ok (.raw payload, rest))
      else
        (st, .error (.protocol ("Unknown frame type tag: " ++ toString frameType)))

/-- State of one pending-map entry.  `waiting`: the `oneshot::Receiver` held
by the blocked `request()` caller is still alive.  `abandoned`: the caller's
timeout fired (or the caller returned), so the receiver was dropped and a
`send` on the stored `oneshot::Sender` is discarded. -/
inductive WaiterState where
  | waiting : WaiterState
  | abandoned : WaiterState
deriving DecidableEq

/-- The pending map `HashMap<u64, oneshot::Sender<ProtocolMessage>>` of
`UnisonChannel`, as an association list (keys kept unique by the insert
operation, matching `HashMap::insert` overwrite semantics). -/
abbrev PendingMap := List (Nat × WaiterState)

/-- Remove every binding of key `k` (`HashMap::remove`). -/
def eraseKey (k : Nat) : PendingMap → PendingMap
  | [] => []
  | (k', w) :: rest =>
    if k' = k then eraseKey k rest else (k', w) :: eraseKey k rest

/-- `HashMap::insert` — overwrite any previous binding of `k`. -/
def insertPending (k : Nat) (w : WaiterState) (m : PendingMap) : PendingMap :=
  (k, w) :: eraseKey k m

/-- `HashMap::get`-style lookup. -/
def lookupPending (k : Nat) : PendingMap → Option WaiterState
  | [] => none
  | (k', w) :: rest => if k' = k then some w else lookupPending k rest

/-- A `request()` caller dropping its receiver (timeout fired): the sender
stays in the map under the same key, but any later `send` on it is
discarded. -/
def abandonKey (k : Nat) : PendingMap → PendingMap
  | [] => []
  | (k', w) :: rest =>
    if k' = k then (k', WaiterState.abandoned) :: abandonKey k rest
    else (k', w) :: abandonKey k rest

/-- The state of a `UnisonChannel` (`channel.rs`): the owned stream, the
pending map, the two bounded receive queues (modelled as the lists of
messages delivered into them, in order), the `next_id` counter (a `u64`,
kept `< 2 ^ 64`), and whether the background receive task is still running. -/
structure ChannelState where
  stream : UnisonStream
  pending : PendingMap
  events : List ProtocolMessage
  raws : List (List Nat)
  nextId : Nat
  recvTaskAlive : Bool
deriving DecidableEq

/-- `UnisonChannel::new` (`channel.rs` lines 48–115): fresh empty maps and
queues, `next_id = 1`, receive task spawned. -/
def UnisonChannel.init (stream : UnisonStream) : ChannelState :=
  { stream := stream, pending := [], events := [], raws := [],
    nextId := 1, recvTaskAlive := true }

/-- The synthesized message the receive loop resolves pending requests with
when the stream errors (`channel.rs` lines 90–98). -/
def connClosedMsg : ProtocolMessage :=
  { id := 0, method := "error", msg_type := .error,
    payload := "\x7b\"error\":\"connection closed\"\x7d" }

/-- One iteration of the receive loop on a decoded `Protocol` frame
(`channel.rs` lines 61–82).  Returns the new channel state together with the
delivery made to a *live* `request()` waiter, if any (`none` when the message
was dropped, queued as an event, or sent to an abandoned waiter):
* `Response`: remove the pending entry for `msg.id`; deliver to it when the
  waiter is live; when no entry exists the message is dropped;
* `Error`: like `Response` when an entry exists, otherwise pushed onto the
  event queue;
* anything else (`Request`, `Event`): pushed onto the event queue. -/
def recvLoopProtocol (s : ChannelState) (msg : ProtocolMessage) :
    ChannelState × Option (Nat × ProtocolMessage) :=
  match msg.msg_type with
  | .response =>
    match lookupPending msg.id s.pending with
    | some w =>
      ({ s with pending := eraseKey msg.id s.pending },
        if w = .waiting then some (msg.id, msg) else none)
    | none => (s, none)
  | .error =>
    match lookupPending msg.id s.pending with
    | some w =>
      ({ s with pending := eraseKey msg.id s.pending },
        if w = .waiting then some (msg.id, msg) else none)
    | none => ({ s with events := s.events ++ [msg] }, none)
  | _ => ({ s with events := s.events ++ [msg] }, none)

/-- The deliveries the receive loop makes when the stream errors
(`channel.rs` lines 87–100): every drained sender receives `connClosedMsg`,
but only live waiters observe it. -/
def drainDeliveries (s : ChannelState) : List (Nat × ProtocolMessage) :=
  (s.pending.filter (fun kw => kw.2 = WaiterState.waiting)).map
    (fun kw => (kw.1, connClosedMsg))

/-- The atomic actions of a channel's lifetime, one constructor per atomic
piece of the Rust code that touches the channel state. -/
inductive ChannelStep where
  /-- `request()` up to and including the pending-map insert
  (`channel.rs` lines 132–139): allocate `id = next_id.fetch_add(1)` and
  insert a live waiter under it.  Happens identically whether the subsequent
  send succeeds or fails. -/
  | requestAlloc : ChannelStep
  /-- The `tokio::time::timeout` of the `request()` awaiting `id` fires
  (`channel.rs` lines 151–153): the caller returns `Timeout` and drops its
  receiver; nothing touches the pending map. -/
  | timeoutFire (id : Nat) : ChannelStep
  /-- The receive loop processes one decoded `Protocol` frame. -/
  | recvProtocol (msg : ProtocolMessage) : ChannelStep
  /-- The receive loop processes one `Raw` frame: push onto the raw queue. -/
  | recvRaw (data : List Nat) : ChannelStep
  /-- The receive loop's `recv_typed_frame` errored (`channel.rs` lines
  87–101): drain the whole pending map, resolving each sender with
  `connClosedMsg`, and exit the loop. -/
  | recvStreamErr : ChannelStep
  /-- `UnisonChannel::close` (`channel.rs` lines 230–237): abort the receive
  task, then `close_stream()`.  The pending map is not touched. -/
  | close : ChannelStep

/-- The state change of `requestAlloc`: `fetch_add` returns `next_id` and
stores `(next_id + 1) mod 2 ^ 64`; a live waiter is inserted under the
returned id. -/
def requestInsert (s : ChannelState) : ChannelState :=
  { s with nextId := (s.nextId + 1) % 2 ^ 64,
           pending := insertPending s.nextId .waiting s.pending }

/-- Apply one step to a channel state.  Receive-loop steps are no-ops once
the receive task has exited or been aborted. -/
def applyStep (s : ChannelState) : ChannelStep → ChannelState
  | .requestAlloc => requestInsert s
  | .timeoutFire id => { s with pending := abandonKey id s.pending }
  | .recvProtocol msg =>
    if s.recvTaskAlive then (recvLoopProtocol s msg).1 else s
  | .recvRaw data =>
    if s.recvTaskAlive then { s with raws := s.raws ++ [data] } else s
  | .recvStreamErr =>
    if s.recvTaskAlive then { s with pending := [], recvTaskAlive := false }
    else s
  | .close =>
    { s with recvTaskAlive := false, stream := s.stream.close_stream }

/-- A default stream used for running traces from a fresh channel. -/
def defaultStream : UnisonStream :=
  { stream_id := 1, method := "bench", isActive := true,
    sendOpen := true, recvOpen := true }

/-- Run a trace of steps from a freshly constructed channel. -/
def runSteps (t : List ChannelStep) : ChannelState :=
  List.foldl applyStep (UnisonChannel.init defaultStream) t

/-- Number of `request()` id allocations in a trace. -/
def countAllocs : List ChannelStep → Nat
  | [] => 0
  | .requestAlloc :: t => countAllocs t + 1
  | _ :: t => countAllocs t

/-- The message id handed out by the `(k+1)`-st `request()` call on a fresh
channel (0-indexed `k`): the value of the `next_id` counter after `k`
allocations. -/
def idOfRequest (k : Nat) : Nat :=
  (runSteps (List.replicate k .requestAlloc)).nextId

/-- The allocate-insert-send phase of `request()` (`channel.rs` lines
132–148), with the outcome of `UnisonStream::send_frame` as a parameter.
On a send error the error is returned as-is (`?`): the freshly inserted
pending entry is *not* cleaned up. -/
def requestSendPhase (s : ChannelState) (sendResult : Except NetworkError Unit) :
    ChannelState × Except NetworkError Nat :=
  match sendResult with
  | .error e => (requestInsert s, .error e)
  | .ok _ => (requestInsert s, .ok s.nextId)

/-- How the `request()` caller's await can end (`channel.rs` lines 151–156). -/
inductive AwaitOutcome where
  /-- `tokio::time::timeout` elapsed. -/
  | timedOut : AwaitOutcome
  /-- The pending sender was dropped without being used (channel torn down
  while draining was impossible). -/
  | senderDropped : AwaitOutcome
  /-- The receive loop resolved the waiter with `msg`. -/
  | fulfilled (msg : ProtocolMessage) : AwaitOutcome
deriving DecidableEq

/-- The tail of `request()` (`channel.rs` lines 151–167): map the await
outcome to the caller's result.  A fulfilled `Error` message becomes a
`Protocol` error carrying the payload; any other fulfilment returns the
payload. -/
def requestFinish (o : AwaitOutcome) : Except NetworkError String :=
  match o with
  | .timedOut => .error .timeout
  | .senderDropped => .error (.protocol "Request cancelled: channel closed")
  | .fulfilled msg =>
    match msg.msg_type with
    | .error => .error (.protocol ("Request error: " ++ msg.payload))
    | _ => .ok msg.payload

/-- `ConnectionEvent` from `server.rs` (the `context` payload is elided: it
is a shared handle irrelevant to delivery). -/
inductive ConnectionEvent where
  | connected (remote_addr : String) : ConnectionEvent
  | disconnected (remote_addr : String) : ConnectionEvent
deriving DecidableEq

/-- The connection-event subscription state of `ProtocolServer`
(`server.rs`): a single `Option<mpsc::Sender<ConnectionEvent>>` slot.
Receivers are identified by the order of their creation; `mailboxes` records,
per receiver, the events delivered into its queue.  (The Rust queue is
bounded at 64; boundedness only delays delivery and is not modelled.) -/
structure ServerEventState where
  nextSub : Nat
  currentTx : Option Nat
  mailboxes : List (Nat × List ConnectionEvent)
deriving DecidableEq

/-- A `ProtocolServer` with no subscriber yet (`ProtocolServer::new` stores
`None`). -/
def ServerEventState.init : ServerEventState :=
  { nextSub := 0, currentTx := none, mailboxes := [] }

/-- `ProtocolServer::subscribe_connection_events` (`server.rs` lines
150–157): create a fresh mpsc channel and *overwrite* the stored sender with
its sender.  Returns the new state and the receiver's identifier. -/
def subscribe_connection_events (s : ServerEventState) :
    ServerEventState × Nat :=
  ({ nextSub := s.nextSub + 1,
     currentTx := some s.nextSub,
     mailboxes := (s.nextSub, []) :: s.mailboxes }, s.nextSub)

/-- Append `e` to the mailbox of receiver `i`, if present. -/
def deliverTo (i : Nat) (e : ConnectionEvent) :
    List (Nat × List ConnectionEvent) → List (Nat × List ConnectionEvent)
  | [] => []
  | (k, q) :: rest =>
    if k = i then (k, q ++ [e]) :: deliverTo i e rest
    else (k, q) :: deliverTo i e rest

/-- `ProtocolServer::emit_connection_event` (`server.rs` lines 160–165):
send on the *currently stored* sender, if any; errors are discarded. -/
def emit_connection_event (s : ServerEventState) (e : ConnectionEvent) :
    ServerEventState :=
  match s.currentTx with
  | some i => { s with mailboxes := deliverTo i e s.mailboxes }
  | none => s

/-- Look up the mailbox of receiver `i`. -/
def mailboxOf (i : Nat) :
    List (Nat × List ConnectionEvent) → Option (List ConnectionEvent)
  | [] => none
  | (k, q) :: rest => if k = i then some q else mailboxOf i rest

/-- The events receiver `i` has been handed. -/
def getMailbox (i : Nat) (s : ServerEventState) : Option (List ConnectionEvent) :=
  mailboxOf i s.mailboxes

/-- `ChannelDirection` from `identity.rs`. -/
inductive ChannelDirection where
  | serverToClient : ChannelDirection
  | clientToServer : ChannelDirection
  | bidirectional : ChannelDirection
deriving DecidableEq

/-- `ChannelStatus` from `identity.rs`. -/
inductive ChannelStatus where
  | available : ChannelStatus
  | busy : ChannelStatus
  | unavailable : ChannelStatus
deriving DecidableEq

/-- `ChannelInfo` from `identity.rs`. -/
structure ChannelInfo where
  name : String
  direction : ChannelDirection
  lifetime : String
  status : ChannelStatus
deriving DecidableEq

/-- `ServerIdentity` from `identity.rs` (`namespace` is a Lean keyword, so
the field is called `nspace`; `metadata` is kept as its JSON rendering). -/
structure ServerIdentity where
  name : String
  version : String
  nspace : String
  channels : List ChannelInfo
  metadata : String
deriving DecidableEq

/-- `ServerIdentity::new`: empty channel list, `Null` metadata. -/
def ServerIdentity.new (name version nspace : String) : ServerIdentity :=
  { name := name, version := version, nspace := nspace,
    channels := [], metadata := "null" }

/-- `ServerIdentity::add_channel`: push one descriptor. -/
def ServerIdentity.add_channel (idy : ServerIdentity) (c : ChannelInfo) :
    ServerIdentity :=
  { idy with channels := idy.channels ++ [c] }

/-- The fields of `ProtocolServer` that `build_identity` reads: the three
identity strings and the registered channel-handler names (`HashMap` keys,
hence pairwise distinct). -/
structure ProtocolServerModel where
  server_name : String
  server_version : String
  server_namespace : String
  channelHandlers : List String

/-- The `ChannelInfo` literal `build_identity` constructs for a handler
named `n` (`server.rs` lines 114–119): direction `Bidirectional`, lifetime
`"persistent"`, status `Available`, whatever the channel's declaration. -/
def identityChannelInfo (n : String) : ChannelInfo :=
  { name := n, direction := .bidirectional,
    lifetime := "persistent", status := .available }

/-- `ProtocolServer::build_identity` (`server.rs` lines 104–123): start from
`ServerIdentity::new` and `add_channel` one `ChannelInfo` per registered
handler name. -/
def build_identity (srv : ProtocolServerModel) : ServerIdentity :=
  List.foldl
    (fun idy n => idy.add_channel (identityChannelInfo n))
    (ServerIdentity.new srv.server_name srv.server_version srv.server_namespace)
    srv.channelHandlers

/-- An 8 MiB payload — one byte past the largest payload a well-formed frame
may carry. -/
def oversizedPayload : List Nat := List.replicate (8 * 1024 * 1024) 7

/-- A channel state with exactly one request in flight (id `1`). -/
def sAfterOneRequest : ChannelState := runSteps [.requestAlloc]

/-- A late `Response` to request id `1`. -/
def lateResp : ProtocolMessage :=
  { id := 1, method := "pong", msg_type := .response, payload := "null" }

/-- A `Response` carrying the reserved id `0`, matching no pending request. -/
def zeroResp : ProtocolMessage :=
  { id := 0, method := "late", msg_type := .response, payload := "null" }

/-- A decoder stub for exercising `recv_typed_frame` on non-protocol tags
(never consulted on those paths). -/
def decodeStub : List Nat → Except NetworkError ProtocolMessage :=
  fun _ => .error (.protocol "unused")

/-- An encoder stub standing in for the rkyv codec at concrete inputs. -/
def encodeStub : ProtocolMessage → List Nat := fun _ => []

/-- A closed stream: `close_stream` applied to the default live stream. -/
def closedStream : UnisonStream := defaultStream.close_stream

/-- A wire frame with the reserved type tag `0x02` and empty payload. -/
def unknownTagFrame : List Nat := [0, 0, 0, 1, 2]

/-- The server-event state reached by: two `subscribe_connection_events`
calls (receivers `0` then `1`), then one `Connected` emission. -/
def twoSubsState : ServerEventState :=
  emit_connection_event
    (subscribe_connection_events
      (subscribe_connection_events ServerEventState.init).1).1
    (.connected "[::1]:9000")

/-- The server-event state with two subscribers, before any emission. -/
def twoSubsBase : ServerEventState :=
  (subscribe_connection_events
    (subscribe_connection_events ServerEventState.init).1).1

/-- A server with one registered channel handler, named `"ping"`. -/
def pingServer : ProtocolServerModel :=
  { server_name := "test-server", server_version := "0.1.0",
    server_namespace := "test", channelHandlers := ["ping"] }

theorem fromBE32_toBE32 (n : Nat) (h : n < 2 ^ 32) :
    fromBE32 (n / 2 ^ 24 % 256) (n / 2 ^ 16 % 256) (n / 2 ^ 8 % 256) (n % 256)
      = n := by
  have e1 : n / 2 ^ 8 / 256 = n / 2 ^ 16 := by
    rw [Nat.div_div_eq_div_mul]; norm_num
  have e2 : n / 2 ^ 16 / 256 = n / 2 ^ 24 := by
    rw [Nat.div_div_eq_div_mul]; norm_num
  have h3 : n / 2 ^ 24 < 256 := by
    rw [Nat.div_lt_iff_lt_mul (by norm_num)]
    calc n < 2 ^ 32 := h
    _ = 256 * 2 ^ 24 := by norm_num
  have m3 : n / 2 ^ 24 % 256 = n / 2 ^ 24 := Nat.mod_eq_of_lt h3
  have d1 := Nat.div_add_mod n (2 ^ 8)
  have d2 := Nat.div_add_mod (n / 2 ^ 8) 256
  have d3 := Nat.div_add_mod (n / 2 ^ 16) 256
  rw [e1] at d2
  rw [e2] at d3
  simp only [fromBE32, m3]
  omega

/-- **C1.** Framing round-trip: for every type tag in `{0x00, 0x01}` and
every payload of at most 8 MiB − 1 bytes, `write_typed_frame` succeeds, and
`read_typed_frame` on the produced bytes (followed by any further stream
content) returns exactly the same tag and payload, consuming exactly the
frame. -/
theorem framing_roundtrip (tag : Nat) (data rest : List Nat)
    (htag : tag = 0 ∨ tag = 1)
    (hlen : data.length ≤ MAX_MESSAGE_SIZE - 1) :
    write_typed_frame tag data = .ok (frameBytes tag data) ∧
    read_typed_frame (frameBytes tag data ++ rest) = .ok ((tag, data), rest) := by
  refine ⟨rfl, ?_⟩
  have hmax : MAX_MESSAGE_SIZE = 8 * 1024 * 1024 := rfl
  have hlt : 1 + data.length < 2 ^ 32 := by omega
  have hmod : (1 + data.length) % 2 ^ 32 = 1 + data.length := Nat.mod_eq_of_lt hlt
  have hfb : frameBytes tag data ++ rest
      = (1 + data.length) / 2 ^ 24 % 256 :: (1 + data.length) / 2 ^ 16 % 256 ::
        (1 + data.length) / 2 ^ 8 % 256 :: (1 + data.length) % 256 ::
        tag :: (data ++ rest) := by
    simp only [frameBytes, toBE32, hmod, List.cons_append, List.nil_append]
  rw [hfb]
  have hbe := fromBE32_toBE32 (1 + data.length) hlt
  simp only [read_typed_frame, hbe]
  have h0 : ¬ (1 + data.length = 0) := by omega
  have h1 : ¬ (1 + data.length > MAX_MESSAGE_SIZE) := by omega
  simp only [h0, h1, if_false]
  have hsub : 1 + data.length - 1 = data.length := by omega
  have hre : readExact data.length (data ++ rest) = some (data, rest) := by
    simp [readExact, List.take_left, List.drop_left]
  simp [hsub, hre]

/-- Witness for C1 at tag `0`, payload `[1, 2, 3]`, remainder `[9]`. -/
theorem framing_roundtrip_witness :
    read_typed_frame (frameBytes 0 [1, 2, 3] ++ [9]) = .ok ((0, [1, 2, 3]), [9]) :=
  (framing_roundtrip 0 [1, 2, 3] [9] (Or.inl rfl) (by decide)).2

/-- **C2, counterexample.** The claim says `write_typed_frame` with a payload
larger than 8 MiB − 1 bytes returns an error.  It does not: the Rust writer
performs no size validation, and succeeds on an 8 MiB payload. -/
theorem write_oversized_succeeds :
    write_typed_frame 0 oversizedPayload = .ok (frameBytes 0 oversizedPayload) :=
  rfl

/-- **C2, amended.** `write_typed_frame` performs no size check: it succeeds
for every payload, of any size (the writer-side rejection the claim states
does not exist in the code).  `read_typed_frame`, upon reading a 4-byte
length field whose value exceeds 8 MiB, returns a too-large error decided by
the length field alone — the result is the same whatever bytes follow, i.e.
the payload is neither read nor allocated. -/
theorem oversize_rejection (tag : Nat) (data : List Nat)
    (b0 b1 b2 b3 : Nat) (rest rest' : List Nat)
    (hbig : fromBE32 b0 b1 b2 b3 > MAX_MESSAGE_SIZE) :
    write_typed_frame tag data = .ok (frameBytes tag data) ∧
    read_typed_frame (b0 :: b1 :: b2 :: b3 :: rest)
      = .error (.tooLarge (fromBE32 b0 b1 b2 b3)) ∧
    read_typed_frame (b0 :: b1 :: b2 :: b3 :: rest)
      = read_typed_frame (b0 :: b1 :: b2 :: b3 :: rest') := by
  have h0 : ¬ (fromBE32 b0 b1 b2 b3 = 0) := by omega
  have hr : ∀ r : List Nat,
      read_typed_frame (b0 :: b1 :: b2 :: b3 :: r)
        = .error (.tooLarge (fromBE32 b0 b1 b2 b3)) := by
    intro r
    simp only [read_typed_frame, h0, hbig]
    simp
  exact ⟨rfl, hr rest, by rw [hr rest, hr rest']⟩

/-- Witness for C2 (amended) at the length field `0x00810000` = 8 454 144
(which exceeds 8 MiB = 8 388 608). -/
theorem oversize_rejection_witness :
    read_typed_frame (0 :: 129 :: 0 :: 0 :: [1, 2, 3])
      = .error (.tooLarge (fromBE32 0 129 0 0)) :=
  (oversize_rejection 0 [] 0 129 0 0 [1, 2, 3] [] (by decide)).2.1

theorem foldl_alloc_nextId (k : Nat) :
    ∀ s : ChannelState, s.nextId < 2 ^ 64 →
      (List.foldl applyStep s (List.replicate k .requestAlloc)).nextId
        = (s.nextId + k) % 2 ^ 64 := by
  induction k with
  | zero =>
    intro s hs
    simpa using (Nat.mod_eq_of_lt hs).symm
  | succ k ih =>
    intro s hs
    rw [List.replicate_succ, List.foldl_cons]
    have hstep : (applyStep s .requestAlloc).nextId = (s.nextId + 1) % 2 ^ 64 := rfl
    have hlt : (applyStep s .requestAlloc).nextId < 2 ^ 64 := by
      rw [hstep]; exact Nat.mod_lt _ (by norm_num)
    rw [ih (applyStep s .requestAlloc) hlt, hstep, Nat.mod_add_mod]
    omega

theorem idOfRequest_eq (k : Nat) : idOfRequest k = (1 + k) % 2 ^ 64 := by
  have h : (UnisonChannel.init defaultStream).nextId = 1 := rfl
  have := foldl_alloc_nextId k (UnisonChannel.init defaultStream)
    (by rw [h]; norm_num)
  rw [idOfRequest, runSteps, this, h]

/-- **C3, counterexample.** The claim quantifies over *every* sequence of `N`
request calls.  The id counter is a `u64` and `fetch_add` wraps: the id of
the `2^64`-th request (index `2^64 − 1`) is `0`, which is smaller than the id
`2^64 − 1` of the request before it, so monotonic increase fails at
`N = 2^64`. -/
theorem request_id_wraparound :
    idOfRequest (2 ^ 64 - 2) = 2 ^ 64 - 1 ∧ idOfRequest (2 ^ 64 - 1) = 0 ∧
    ¬ idOfRequest (2 ^ 64 - 2) < idOfRequest (2 ^ 64 - 1) := by
  rw [idOfRequest_eq, idOfRequest_eq]
  norm_num

/-- **C3, amended.** For every sequence of at most `2^64 − 1` request calls
on one channel (the allocation order of the atomic `fetch_add` in the
concurrent case), the ids allocated are pairwise distinct and monotonically
increasing, and the first id allocated on a fresh channel is `1`.  (At the
`2^64`-th call the 64-bit counter wraps to `0`.) -/
theorem request_ids_monotone (N i j : Nat) (hN : N ≤ 2 ^ 64 - 1)
    (hij : i < j) (hjN : j < N) :
    idOfRequest 0 = 1 ∧ idOfRequest i < idOfRequest j ∧
      idOfRequest i ≠ idOfRequest j := by
  have hi := idOfRequest_eq i
  have hj := idOfRequest_eq j
  have hjlt : 1 + j < 2 ^ 64 := by omega
  have hilt : 1 + i < 2 ^ 64 := by omega
  rw [Nat.mod_eq_of_lt hjlt] at hj
  rw [Nat.mod_eq_of_lt hilt] at hi
  refine ⟨?_, ?_, ?_⟩
  · rw [idOfRequest_eq]; norm_num
  · omega
  · omega

/-- Witness for C3 (amended) at `N = 3`, `i = 0`, `j = 1`. -/
theorem request_ids_monotone_witness :
    idOfRequest 0 = 1 ∧ idOfRequest 0 < idOfRequest 1 ∧
      idOfRequest 0 ≠ idOfRequest 1 :=
  request_ids_monotone 3 0 1 (by norm_num) (by norm_num) (by norm_num)

theorem mem_eraseKey {kw : Nat × WaiterState} {k : Nat} :
    ∀ {l : PendingMap}, kw ∈ eraseKey k l → kw ∈ l := by
  intro l
  induction l with
  | nil => simp [eraseKey]
  | cons hd tl ih =>
    obtain ⟨k', w⟩ := hd
    simp only [eraseKey]
    by_cases h : k' = k
    · rw [if_pos h]
      intro hm
      exact List.mem_cons_of_mem _ (ih hm)
    · rw [if_neg h]
      intro hm
      rcases List.mem_cons.mp hm with h' | hm'
      · exact h' ▸ List.mem_cons_self _ _
      · exact List.mem_cons_of_mem _ (ih hm')

theorem recvLoopProtocol_pending_mem (s : ChannelState) (msg : ProtocolMessage) :
    ∀ kw ∈ (recvLoopProtocol s msg).1.pending, kw ∈ s.pending := by
  intro kw
  unfold recvLoopProtocol
  split
  · split
    · intro h; exact mem_eraseKey (by simpa using h)
    · intro h; simpa using h
  · split
    · intro h; exact mem_eraseKey (by simpa using h)
    · intro h; simpa using h
  · intro h; simpa using h

theorem recvLoopProtocol_nextId (s : ChannelState) (msg : ProtocolMessage) :
    (recvLoopProtocol s msg).1.nextId = s.nextId := by
  unfold recvLoopProtocol
  split
  · split <;> simp
  · split <;> simp
  · simp

theorem applyStep_nextId_le (s : ChannelState) :
    ∀ st : ChannelStep, st ≠ .requestAlloc → (applyStep s st).nextId = s.nextId := by
  intro st hst
  cases st with
  | requestAlloc => exact absurd rfl hst
  | timeoutFire id => rfl
  | recvProtocol msg =>
    simp only [applyStep]
    by_cases h : s.recvTaskAlive
    · rw [if_pos h, recvLoopProtocol_nextId]
    · rw [if_neg h]
  | recvRaw data =>
    simp only [applyStep]
    by_cases h : s.recvTaskAlive
    · rw [if_pos h]
    · rw [if_neg h]
  | recvStreamErr =>
    simp only [applyStep]
    by_cases h : s.recvTaskAlive
    · rw [if_pos h]
    · rw [if_neg h]
  | close => rfl

theorem abandonKey_keys_nonzero (k : Nat) :
    ∀ m : PendingMap, (∀ kw ∈ m, kw.1 ≠ 0) →
      ∀ kw ∈ abandonKey k m, kw.1 ≠ 0 := by
  intro m
  induction m with
  | nil =>
    intro _
    simp [abandonKey]
  | cons hd tl ih =>
    obtain ⟨k0, w⟩ := hd
    intro hp kw hkw
    have htl : ∀ kw ∈ tl, kw.1 ≠ 0 :=
      fun a ha => hp a (List.mem_cons_of_mem _ ha)
    by_cases h : k0 = k
    · rw [abandonKey, if_pos h] at hkw
      rcases List.mem_cons.mp hkw with h' | h'
      · rw [h']
        exact hp (k0, w) (List.mem_cons_self _ _)
      · exact ih htl kw h'
    · rw [abandonKey, if_neg h] at hkw
      rcases List.mem_cons.mp hkw with h' | h'
      · rw [h']
        exact hp (k0, w) (List.mem_cons_self _ _)
      · exact ih htl kw h'

theorem applyStep_pending_nonzero (s : ChannelState) (st : ChannelStep)
    (hst : st ≠ .requestAlloc) (hp : ∀ kw ∈ s.pending, kw.1 ≠ 0) :
    ∀ kw ∈ (applyStep s st).pending, kw.1 ≠ 0 := by
  cases st with
  | requestAlloc => exact absurd rfl hst
  | timeoutFire id =>
    intro kw hkw
    simp only [applyStep] at hkw
    exact abandonKey_keys_nonzero id s.pending hp kw hkw
  | recvProtocol msg =>
    intro kw hkw
    simp only [applyStep] at hkw
    by_cases h : s.recvTaskAlive
    · rw [if_pos h] at hkw
      exact hp kw (recvLoopProtocol_pending_mem s msg kw hkw)
    · rw [if_neg h] at hkw
      exact hp kw hkw
  | recvRaw data =>
    intro kw hkw
    simp only [applyStep] at hkw
    by_cases h : s.recvTaskAlive
    · rw [if_pos h] at hkw
      simp only at hkw
      exact hp kw hkw
    · rw [if_neg h] at hkw
      exact hp kw hkw
  | recvStreamErr =>
    intro kw hkw
    simp only [applyStep] at hkw
    by_cases h : s.recvTaskAlive
    · rw [if_pos h] at hkw
      simp at hkw
    · rw [if_neg h] at hkw
      exact hp kw hkw
  | close =>
    intro kw hkw
    simp only [applyStep] at hkw
    exact hp kw hkw

theorem countAllocs_cons_other (st : ChannelStep) (t : List ChannelStep)
    (hst : st ≠ .requestAlloc) :
    countAllocs (st :: t) = countAllocs t := by
  cases st with
  | requestAlloc => exact absurd rfl hst
  | timeoutFire id => rfl
  | recvProtocol msg => rfl
  | recvRaw data => rfl
  | recvStreamErr => rfl
  | close => rfl

theorem pending_nonzero_aux (t : List ChannelStep) :
    ∀ s : ChannelState, 1 ≤ s.nextId →
      s.nextId + countAllocs t ≤ 2 ^ 64 - 1 →
      (∀ kw ∈ s.pending, kw.1 ≠ 0) →
      ∀ kw ∈ (List.foldl applyStep s t).pending, kw.1 ≠ 0 := by
  induction t with
  | nil =>
    intro s _ _ hp
    simpa using hp
  | cons st t ih =>
    intro s h1 h2 hp
    rw [List.foldl_cons]
    by_cases hst : st = ChannelStep.requestAlloc
    · subst hst
      have hc : countAllocs (ChannelStep.requestAlloc :: t) = countAllocs t + 1 := rfl
      rw [hc] at h2
      have hmod : (s.nextId + 1) % 2 ^ 64 = s.nextId + 1 :=
        Nat.mod_eq_of_lt (by omega)
      have hn : (applyStep s .requestAlloc).nextId = (s.nextId + 1) % 2 ^ 64 := rfl
      apply ih
      · rw [hn, hmod]; omega
      · rw [hn, hmod]; omega
      · intro kw hkw
        have hpd : (applyStep s .requestAlloc).pending
            = insertPending s.nextId .waiting s.pending := rfl
        rw [hpd] at hkw
        rcases List.mem_cons.mp hkw with h | h
        · rw [h]; simp; omega
        · exact hp kw (mem_eraseKey h)
    · have hn := applyStep_nextId_le s st hst
      have hc := countAllocs_cons_other st t hst
      rw [hc] at h2
      apply ih
      · rw [hn]; exact h1
      · rw [hn]; exact h2
      · exact applyStep_pending_nonzero s st hst hp

theorem lookupPending_insert_self (k : Nat) (w : WaiterState) (m : PendingMap) :
    lookupPending k (insertPending k w m) = some w := by
  simp [insertPending, lookupPending]

theorem lookupPending_eraseKey_self (k : Nat) :
    ∀ m : PendingMap, lookupPending k (eraseKey k m) = none := by
  intro m
  induction m with
  | nil => rfl
  | cons hd tl ih =>
    obtain ⟨k', w⟩ := hd
    simp only [eraseKey]
    by_cases h : k' = k
    · rw [if_pos h]; exact ih
    · rw [if_neg h]
      simp only [lookupPending, if_neg h]
      exact ih

theorem lookupPending_eraseKey_ne (k k' : Nat) (h : k' ≠ k) :
    ∀ m : PendingMap, lookupPending k' (eraseKey k m) = lookupPending k' m := by
  intro m
  induction m with
  | nil => rfl
  | cons hd tl ih =>
    obtain ⟨k0, w⟩ := hd
    simp only [eraseKey, lookupPending]
    by_cases h0 : k0 = k
    · rw [if_pos h0]
      have : ¬ k0 = k' := fun he => h (he ▸ h0 ▸ rfl)
      rw [ih, if_neg this]
    · rw [if_neg h0]
      simp only [lookupPending]
      by_cases h1 : k0 = k'
      · rw [if_pos h1, if_pos h1]
      · rw [if_neg h1, if_neg h1]
        exact ih

theorem lookupPending_abandonKey_self (id : Nat) :
    ∀ m : PendingMap,
      lookupPending id (abandonKey id m)
        = (lookupPending id m).map (fun _ => WaiterState.abandoned) := by
  intro m
  induction m with
  | nil => rfl
  | cons hd tl ih =>
    obtain ⟨k, w⟩ := hd
    by_cases h : k = id <;> simp [abandonKey, lookupPending, h, ih]

theorem lookupPending_abandonKey_ne (id k : Nat) (h : k ≠ id) :
    ∀ m : PendingMap,
      lookupPending k (abandonKey id m) = lookupPending k m := by
  intro m
  induction m with
  | nil => rfl
  | cons hd tl ih =>
    obtain ⟨k0, w⟩ := hd
    have hik : ¬ id = k := fun he => h he.symm
    by_cases h0 : k0 = id
    · simp [abandonKey, lookupPending, h0, hik, ih]
    · by_cases h1 : k0 = k
      · simp [abandonKey, lookupPending, h0, h1, h, hik]
      · simp [abandonKey, lookupPending, h0, h1, h, hik, ih]

theorem lookupPending_mem {k : Nat} {w : WaiterState} :
    ∀ {m : PendingMap}, lookupPending k m = some w → (k, w) ∈ m := by
  intro m
  induction m with
  | nil => intro h; exact absurd h (by simp [lookupPending])
  | cons hd tl ih =>
    obtain ⟨k0, w0⟩ := hd
    simp only [lookupPending]
    by_cases h0 : k0 = k
    · rw [if_pos h0]
      intro h
      have : w0 = w := by injection h
      rw [← h0, ← this]
      exact List.mem_cons_self _ _
    · rw [if_neg h0]
      intro h
      exact List.mem_cons_of_mem _ (ih h)

/-- **C4, counterexample.** The claim says a `Response` with `id = 0` (absent
from the pending map) is treated as an event and pushed onto the event
queue.  It is not: on a fresh channel, the receive loop drops such a message
— the state is unchanged (event queue still empty) and nothing is
delivered. -/
theorem zero_id_response_dropped_concrete :
    recvLoopProtocol (UnisonChannel.init defaultStream) zeroResp
      = (UnisonChannel.init defaultStream, none) ∧
    (recvLoopProtocol (UnisonChannel.init defaultStream) zeroResp).1.events = [] := by
  constructor
  · rfl
  · rfl

/-- **C4, amended.** As long as fewer than `2^64 − 1` requests have been
issued on the channel (the 64-bit id counter has not wrapped), the pending
map never contains an entry with key `0`; and an incoming `Response` whose
id (here `0`) is not in the pending map is silently *dropped* by the receive
loop — the channel state is unchanged (in particular nothing is pushed onto
the event queue) and nothing is delivered to any waiter. -/
theorem pending_no_zero_and_zero_response_dropped
    (t : List ChannelStep) (s : ChannelState) (msg : ProtocolMessage)
    (ht : countAllocs t ≤ 2 ^ 64 - 2)
    (hmt : msg.msg_type = .response)
    (hnp : lookupPending msg.id s.pending = none) :
    (∀ kw ∈ (runSteps t).pending, kw.1 ≠ 0) ∧
    recvLoopProtocol s msg = (s, none) := by
  constructor
  · apply pending_nonzero_aux
    · show 1 ≤ (UnisonChannel.init defaultStream).nextId
      norm_num [UnisonChannel.init]
    · show (UnisonChannel.init defaultStream).nextId + countAllocs t ≤ 2 ^ 64 - 1
      have : (UnisonChannel.init defaultStream).nextId = 1 := rfl
      omega
    · intro kw hkw
      exact absurd hkw (by simp [UnisonChannel.init])
  · unfold recvLoopProtocol
    rw [hmt, hnp]

/-- Witness for C4 (amended) on a one-request trace and the concrete
zero-id response. -/
theorem pending_no_zero_witness :
    (∀ kw ∈ (runSteps [.requestAlloc]).pending, kw.1 ≠ 0) ∧
    recvLoopProtocol (UnisonChannel.init defaultStream) zeroResp
      = (UnisonChannel.init defaultStream, none) :=
  pending_no_zero_and_zero_response_dropped [.requestAlloc]
    (UnisonChannel.init defaultStream) zeroResp
    (by norm_num [countAllocs]) rfl rfl

/-- **C5.** When a request times out: the caller gets a `Timeout` error while
the pending entry for its id stays in the map (now with a dropped receiver);
the timeout closes neither the receive task nor the stream, and touches no
queue.  A response for that id arriving later is removed from the pending map
and silently discarded: it is delivered to no caller, it is not queued as an
event, and the entries of all other requests are untouched. -/
theorem timeout_then_late_response (s : ChannelState) (id : Nat)
    (msg : ProtocolMessage)
    (hw : lookupPending id s.pending = some .waiting)
    (hmt : msg.msg_type = .response) (hid : msg.id = id) :
    requestFinish .timedOut = .error .timeout ∧
    lookupPending id (applyStep s (.timeoutFire id)).pending = some .abandoned ∧
    (applyStep s (.timeoutFire id)).recvTaskAlive = s.recvTaskAlive ∧
    (applyStep s (.timeoutFire id)).stream = s.stream ∧
    (applyStep s (.timeoutFire id)).events = s.events ∧
    (applyStep s (.timeoutFire id)).raws = s.raws ∧
    lookupPending id
      (recvLoopProtocol (applyStep s (.timeoutFire id)) msg).1.pending = none ∧
    (recvLoopProtocol (applyStep s (.timeoutFire id)) msg).2 = none ∧
    (recvLoopProtocol (applyStep s (.timeoutFire id)) msg).1.events = s.events ∧
    (∀ k, k ≠ id →
      lookupPending k
        (recvLoopProtocol (applyStep s (.timeoutFire id)) msg).1.pending
        = lookupPending k s.pending) := by
  have hpend : (applyStep s (.timeoutFire id)).pending
      = abandonKey id s.pending := rfl
  have hab : lookupPending id (applyStep s (.timeoutFire id)).pending
      = some .abandoned := by
    rw [hpend, lookupPending_abandonKey_self, hw]
    rfl
  have hrecv : recvLoopProtocol (applyStep s (.timeoutFire id)) msg
      = ({ applyStep s (.timeoutFire id) with
            pending := eraseKey id (abandonKey id s.pending) }, none) := by
    unfold recvLoopProtocol
    rw [hmt, hid, hab]
    simp [hpend]
  refine ⟨rfl, hab, rfl, rfl, rfl, rfl, ?_, ?_, ?_, ?_⟩
  · rw [hrecv]
    exact lookupPending_eraseKey_self id _
  · rw [hrecv]
  · rw [hrecv]
    rfl
  · intro k hk
    rw [hrecv]
    show lookupPending k (eraseKey id (abandonKey id s.pending))
        = lookupPending k s.pending
    rw [lookupPending_eraseKey_ne id k hk, lookupPending_abandonKey_ne id k hk]

/-- Witness for C5: the one-request channel, timeout on id `1`, then the late
response `lateResp`. -/
theorem timeout_then_late_response_witness :
    requestFinish .timedOut = .error .timeout ∧
    lookupPending 1 (applyStep sAfterOneRequest (.timeoutFire 1)).pending
      = some .abandoned ∧
    (applyStep sAfterOneRequest (.timeoutFire 1)).recvTaskAlive
      = sAfterOneRequest.recvTaskAlive ∧
    (applyStep sAfterOneRequest (.timeoutFire 1)).stream
      = sAfterOneRequest.stream ∧
    (applyStep sAfterOneRequest (.timeoutFire 1)).events
      = sAfterOneRequest.events ∧
    (applyStep sAfterOneRequest (.timeoutFire 1)).raws
      = sAfterOneRequest.raws ∧
    lookupPending 1
      (recvLoopProtocol (applyStep sAfterOneRequest (.timeoutFire 1))
        lateResp).1.pending = none ∧
    (recvLoopProtocol (applyStep sAfterOneRequest (.timeoutFire 1))
      lateResp).2 = none ∧
    (recvLoopProtocol (applyStep sAfterOneRequest (.timeoutFire 1))
      lateResp).1.events = sAfterOneRequest.events ∧
    (∀ k, k ≠ 1 →
      lookupPending k
        (recvLoopProtocol (applyStep sAfterOneRequest (.timeoutFire 1))
          lateResp).1.pending
        = lookupPending k sAfterOneRequest.pending) :=
  timeout_then_late_response sAfterOneRequest 1 lateResp (by decide) rfl rfl

/-- **C6, counterexample.** The claim says `close()` resolves every in-flight
pending entry with a connection-closed error.  It does not: on the
one-request channel, after `close()` the entry for id `1` is still present
*as a live, unresolved waiter* (its `oneshot` sender was never used), even
though the receive task was aborted and the stream closed — so the blocked
`request()` call is never fulfilled and can only end by its timeout. -/
theorem close_leaves_pending_unresolved :
    lookupPending 1 (applyStep sAfterOneRequest .close).pending
      = some .waiting ∧
    (applyStep sAfterOneRequest .close).recvTaskAlive = false ∧
    (applyStep sAfterOneRequest .close).stream.isActive = false := by
  refine ⟨by decide, rfl, rfl⟩

/-- **C6, amended.** `close()` aborts the receive task and closes the stream
but leaves the pending map exactly as it was: no pending entry is resolved,
so a request in flight at close time is never fulfilled and waits out its
full timeout (ending in a `Timeout` error).  Pending waiters are resolved
with the connection-closed error only on the receive loop's own
stream-error path, which drains the map and hands `connClosedMsg` to every
live waiter. -/
theorem close_does_not_resolve_pending (s : ChannelState) (id : Nat)
    (w : WaiterState)
    (hw : lookupPending id s.pending = some w)
    (ha : s.recvTaskAlive = true) :
    (applyStep s .close).pending = s.pending ∧
    lookupPending id (applyStep s .close).pending = some w ∧
    (applyStep s .close).recvTaskAlive = false ∧
    (applyStep s .close).stream.isActive = false ∧
    requestFinish .timedOut = .error .timeout ∧
    (applyStep s .recvStreamErr).pending = [] ∧
    (w = .waiting → (id, connClosedMsg) ∈ drainDeliveries s) := by
  refine ⟨rfl, hw, rfl, rfl, rfl, ?_, ?_⟩
  · show (if s.recvTaskAlive then
        { s with pending := [], recvTaskAlive := false } else s).pending = []
    rw [if_pos (by rw [ha])]
  · intro hwait
    subst hwait
    have hmem : (id, WaiterState.waiting) ∈ s.pending := lookupPending_mem hw
    have hfil : (id, WaiterState.waiting)
        ∈ s.pending.filter (fun kw => kw.2 = WaiterState.waiting) :=
      List.mem_filter.mpr ⟨hmem, by simp⟩
    exact List.mem_map.mpr ⟨(id, WaiterState.waiting), hfil, rfl⟩

/-- Witness for C6 (amended) on the one-request channel at id `1`. -/
theorem close_does_not_resolve_pending_witness :
    (applyStep sAfterOneRequest .close).pending = sAfterOneRequest.pending ∧
    lookupPending 1 (applyStep sAfterOneRequest .close).pending
      = some .waiting ∧
    (applyStep sAfterOneRequest .close).recvTaskAlive = false ∧
    (applyStep sAfterOneRequest .close).stream.isActive = false ∧
    requestFinish .timedOut = .error .timeout ∧
    (applyStep sAfterOneRequest .recvStreamErr).pending = [] ∧
    (WaiterState.waiting = .waiting →
      (1, connClosedMsg) ∈ drainDeliveries sAfterOneRequest) :=
  close_does_not_resolve_pending sAfterOneRequest 1 .waiting (by decide) rfl

/-- **C7, counterexample.** The claim says a frame with a reserved type tag
closes the receiving stream (makes it inactive so subsequent operations
fail).  It does not: on a live stream fed a frame with tag `0x02`,
`recv_typed_frame` returns a `Protocol` error but the stream state is
completely unchanged — `is_active` is still `true`, and a subsequent send on
the very same stream still succeeds. -/
theorem unknown_tag_leaves_stream_active :
    UnisonStream.recv_typed_frame decodeStub defaultStream unknownTagFrame
      = (defaultStream,
          .error (.protocol ("Unknown frame type tag: " ++ toString 2))) ∧
    defaultStream.isActive = true ∧
    UnisonStream.send_raw_frame defaultStream [1] = .ok (frameBytes 1 [1]) := by
  refine ⟨?_, rfl, rfl⟩
  rfl

/-- **C7, amended.** `recv_typed_frame` returns a `Protocol` error for every
received tag other than `0x00` and `0x01`, but it does *not* close or
deactivate the stream: the stream state is returned unchanged (`is_active`
is cleared only when `read_typed_frame` itself fails), so subsequent
operations on the stream are not rejected. -/
theorem unknown_tag_protocol_error
    (decode : List Nat → Except NetworkError ProtocolMessage)
    (st : UnisonStream) (input : List Nat) (t : Nat)
    (payload rest : List Nat)
    (hact : st.isActive = true) (hro : st.recvOpen = true)
    (hread : read_typed_frame input = .ok ((t, payload), rest))
    (ht0 : t ≠ 0) (ht1 : t ≠ 1) :
    UnisonStream.recv_typed_frame decode st input
      = (st, .error (.protocol ("Unknown frame type tag: " ++ toString t))) := by
  unfold UnisonStream.recv_typed_frame
  rw [hact, hro]
  simp only [Bool.true_eq_false, if_false, hread, ht0, ht1, if_neg, ite_false]

/-- Witness for C7 (amended) at tag `0x02` on the default live stream. -/
theorem unknown_tag_protocol_error_witness :
    UnisonStream.recv_typed_frame decodeStub defaultStream unknownTagFrame
      = (defaultStream,
          .error (.protocol ("Unknown frame type tag: " ++ toString 2))) :=
  unknown_tag_protocol_error decodeStub defaultStream unknownTagFrame 2 [] []
    rfl rfl rfl (by decide) (by decide)

/-- **C8, counterexample.** The claim says every subscriber receives an
emitted connection event.  But `subscribe_connection_events` *replaces* the
stored sender: with two subscribers (`0`, then `1`) and one `Connected`
emission, subscriber `0`'s mailbox is empty — only the most recent
subscriber `1` received the event. -/
theorem first_subscriber_misses_event :
    getMailbox 0 twoSubsState = some [] ∧
    getMailbox 1 twoSubsState = some [.connected "[::1]:9000"] := by
  constructor
  · rfl
  · rfl

theorem mailboxOf_deliverTo_self (j : Nat) (e : ConnectionEvent) :
    ∀ m, mailboxOf j (deliverTo j e m)
      = (mailboxOf j m).map (fun q => q ++ [e]) := by
  intro m
  induction m with
  | nil => rfl
  | cons hd tl ih =>
    obtain ⟨k, q⟩ := hd
    by_cases h : k = j <;> simp [deliverTo, mailboxOf, h, ih]

theorem mailboxOf_deliverTo_ne (i j : Nat) (e : ConnectionEvent) (h : i ≠ j) :
    ∀ m, mailboxOf i (deliverTo j e m) = mailboxOf i m := by
  intro m
  induction m with
  | nil => rfl
  | cons hd tl ih =>
    obtain ⟨k, q⟩ := hd
    have hji : ¬ j = i := fun he => h he.symm
    by_cases h0 : k = j
    · simp [deliverTo, mailboxOf, h0, hji, ih]
    · by_cases h1 : k = i
      · simp [deliverTo, mailboxOf, h0, h1, h]
      · simp [deliverTo, mailboxOf, h0, h1, ih]

/-- **C8, amended.** Connection events go through a single stored mpsc
sender, not a broadcast: `subscribe_connection_events` installs a fresh
sender, *replacing* whatever was stored, and `emit_connection_event`
delivers only to the currently stored receiver.  Any other (e.g. earlier)
subscriber's mailbox is unaffected by the emission, so with several
subscribers only the most recent one receives events. -/
theorem connection_events_single_subscriber (s : ServerEventState)
    (e : ConnectionEvent) (i j : Nat) (l : List ConnectionEvent)
    (hij : i ≠ j) (hcur : s.currentTx = some j)
    (hj : getMailbox j s = some l) :
    (subscribe_connection_events s).1.currentTx = some s.nextSub ∧
    getMailbox j (emit_connection_event s e) = some (l ++ [e]) ∧
    getMailbox i (emit_connection_event s e) = getMailbox i s := by
  have hemit : emit_connection_event s e
      = { s with mailboxes := deliverTo j e s.mailboxes } := by
    unfold emit_connection_event
    rw [hcur]
  refine ⟨rfl, ?_, ?_⟩
  · rw [hemit]
    show mailboxOf j (deliverTo j e s.mailboxes)
        = some (l ++ [e])
    rw [mailboxOf_deliverTo_self]
    rw [show mailboxOf j s.mailboxes = some l from hj]
    rfl
  · rw [hemit]
    show mailboxOf i (deliverTo j e s.mailboxes) = mailboxOf i s.mailboxes
    exact mailboxOf_deliverTo_ne i j e hij s.mailboxes

/-- Witness for C8 (amended): two subscribers, the current one is `1`, the
stale one is `0`. -/
theorem connection_events_single_subscriber_witness :
    (subscribe_connection_events twoSubsBase).1.currentTx
      = some twoSubsBase.nextSub ∧
    getMailbox 1 (emit_connection_event twoSubsBase (.connected "[::1]:9000"))
      = some ([] ++ [.connected "[::1]:9000"]) ∧
    getMailbox 0 (emit_connection_event twoSubsBase (.connected "[::1]:9000"))
      = getMailbox 0 twoSubsBase :=
  connection_events_single_subscriber twoSubsBase (.connected "[::1]:9000")
    0 1 [] (by decide) rfl rfl

/-- **C9.** If the underlying send inside `request()` fails with error `e`
(for example because the stream is inactive, as `send_frame` then refuses
with a connection error), `request()` returns that error, but the waiter
entry that was installed for the freshly allocated id before the send
remains in the pending map as a live waiter — there is no cleanup on the
send-error path. -/
theorem send_error_leaves_pending (s : ChannelState) (e : NetworkError)
    (encode : ProtocolMessage → List Nat) (st : UnisonStream)
    (msg : ProtocolMessage) (hin : st.isActive = false) :
    (requestSendPhase s (.error e)).2 = .error e ∧
    lookupPending s.nextId (requestSendPhase s (.error e)).1.pending
      = some .waiting ∧
    UnisonStream.send_frame encode st msg
      = .error (.connection "Stream is not active") := by
  refine ⟨rfl, ?_, ?_⟩
  · show lookupPending s.nextId (insertPending s.nextId .waiting s.pending)
        = some .waiting
    exact lookupPending_insert_self _ _ _
  · unfold UnisonStream.send_frame
    rw [hin]
    rfl

/-- Witness for C9: a fresh channel whose stream has been closed, so the
send fails with the stream-inactive connection error. -/
theorem send_error_leaves_pending_witness :
    (requestSendPhase (UnisonChannel.init defaultStream)
        (.error (.connection "Stream is not active"))).2
      = .error (.connection "Stream is not active") ∧
    lookupPending (UnisonChannel.init defaultStream).nextId
      (requestSendPhase (UnisonChannel.init defaultStream)
        (.error (.connection "Stream is not active"))).1.pending
      = some .waiting ∧
    UnisonStream.send_frame encodeStub closedStream lateResp
      = .error (.connection "Stream is not active") :=
  send_error_leaves_pending (UnisonChannel.init defaultStream)
    (.connection "Stream is not active") encodeStub closedStream lateResp rfl

theorem build_identity_channels (srv : ProtocolServerModel) :
    (build_identity srv).channels
      = srv.channelHandlers.map identityChannelInfo := by
  unfold build_identity
  have aux : ∀ (l : List String) (idy : ServerIdentity),
      (List.foldl (fun idy n => idy.add_channel (identityChannelInfo n)) idy
        l).channels = idy.channels ++ l.map identityChannelInfo := by
    intro l
    induction l with
    | nil => intro idy; simp
    | cons n l ih =>
      intro idy
      rw [List.foldl_cons, ih]
      simp [ServerIdentity.add_channel]
  rw [aux]
  rfl

theorem filter_descriptor_length (n : String) :
    ∀ l : List String, l.Nodup →
      ((l.map identityChannelInfo).filter
          (fun c => c.name = n)).length
        = if n ∈ l then 1 else 0 := by
  intro l
  induction l with
  | nil => intro _; simp
  | cons m l ih =>
    intro hnd
    have hnd' : l.Nodup := hnd.of_cons
    by_cases h : m = n
    · subst h
      have hnot : m ∉ l := (List.nodup_cons.mp hnd).1
      simp only [List.map_cons, List.filter_cons]
      rw [if_pos (by simp [identityChannelInfo])]
      rw [List.length_cons, ih hnd']
      rw [if_neg hnot, if_pos (List.mem_cons_self _ _)]
    · simp only [List.map_cons, List.filter_cons]
      rw [if_neg (by simp [identityChannelInfo, h])]
      rw [ih hnd']
      by_cases hn : n ∈ l
      · rw [if_pos hn, if_pos (List.mem_cons_of_mem _ hn)]
      · rw [if_neg hn, if_neg (by
          intro hc
          rcases List.mem_cons.mp hc with hc | hc
          · exact h hc.symm
          · exact hn hc)]

/-- **C10.** `build_identity` returns a `ServerIdentity` whose channel list
contains exactly one descriptor per registered channel handler name (handler
names are `HashMap` keys, hence pairwise distinct), and every descriptor has
direction `Bidirectional`, lifetime `"persistent"` and status `Available`,
regardless of how the channel was declared or configured. -/
theorem build_identity_descriptors (srv : ProtocolServerModel) (n : String)
    (hnd : srv.channelHandlers.Nodup) :
    ((build_identity srv).channels.filter (fun c => c.name = n)).length
      = (if n ∈ srv.channelHandlers then 1 else 0) ∧
    (∀ c ∈ (build_identity srv).channels,
      c.direction = .bidirectional ∧ c.lifetime = "persistent" ∧
        c.status = .available) := by
  constructor
  · rw [build_identity_channels]
    exact filter_descriptor_length n srv.channelHandlers hnd
  · intro c hc
    rw [build_identity_channels] at hc
    rcases List.mem_map.mp hc with ⟨a, _, ha⟩
    rw [← ha]
    exact ⟨rfl, rfl, rfl⟩

/-- Witness for C10 at the one-handler server and name `"ping"`. -/
theorem build_identity_descriptors_witness :
    ((build_identity pingServer).channels.filter
        (fun c => c.name = "ping")).length
      = (if "ping" ∈ pingServer.channelHandlers then 1 else 0) ∧
    (∀ c ∈ (build_identity pingServer).channels,
      c.direction = .bidirectional ∧ c.lifetime = "persistent" ∧
        c.status = .available) :=
  build_identity_descriptors pingServer "ping" (by decide)

end Unison
